import Mathlib

/-!
# Verification of the PTY session manager core (`src/pty-manager.ts`)

This file gives a shallow embedding, in Lean 4, of the core of the
`obsidian-shell` repository: the PTY session manager, the PATH resolver
(with its process-wide cache), the escape-sequence sanitizer and the
command tokenizer, together with proofs settling the frozen claims about
this code.

Modelling conventions:
* JavaScript strings are Lean `String`s (a `String` here is a structure
  holding a `List Char`, so all string operations used are executable and
  kernel-reducible).
* `process.env` is modelled as a total function `String → Option String`
  (`none` = variable unset).
* JavaScript truthiness on optional strings (`a || b`) is modelled by
  `jsOrStr`: an absent *or empty* string falls through to the default.
* The module-level mutable `cachedUserPath` is modelled by explicit state
  passing: `resolveUserPath` takes the cache before the call and returns
  the value produced, the cache after the call, and the number of external
  shell invocations the call performed.
* The event machinery of `node-pty` (handlers registered by `spawn`,
  OS-driven data/exit notifications, possibly delivered late for an
  already-killed process) is modelled by an operation language `Op` and a
  step function; a delivered event fires the manager's *current* callback
  lists, as the registered JavaScript closures read `this.dataCallbacks` /
  `this.exitCallbacks` at delivery time.
-/

/-! ## JavaScript string helpers -/

/-- JavaScript `a || b` for an optional string `a`: both `undefined` and the
empty string (falsy) fall through to `b`. -/
def jsOrStr (a : Option String) (b : String) : String :=
  match a with
  | some s => if s = "" then b else s
  | none => b

/-- Split a character list at every separator recognised by `p`
(JavaScript `String.prototype.split` semantics: separators delimit
possibly-empty groups, and the empty input yields one empty group). -/
def splitByPred (p : Char → Bool) : List Char → List (List Char)
  | [] => [[]]
  | c :: cs =>
    let r := splitByPred p cs
    if p c then [] :: r
    else
      match r with
      | [] => [[c]]
      | g :: gs => (c :: g) :: gs

/-- JavaScript `s.split(":")`. -/
def splitColon (s : String) : List String :=
  (splitByPred (fun c => c = ':') s.data).map String.mk

/-- JavaScript `s.trim()`: remove leading and trailing whitespace. -/
def trimJS (s : String) : String :=
  String.mk (((s.data.dropWhile Char.isWhitespace).reverse.dropWhile Char.isWhitespace).reverse)

/-- JavaScript `array.join(":")`. -/
def joinColon : List String → String
  | [] => ""
  | [x] => x
  | x :: y :: ys => x ++ ":" ++ joinColon (y :: ys)

/-- Node's `path.join(a, b)` restricted to the shapes used in this code
base: empty segments are skipped, non-empty ones are separated by `/`. -/
def pathJoin2 (a b : String) : String :=
  if a = "" then b else a ++ "/" ++ b

/-- Node's `path.join(a, b, c)` for the shapes used in this code base. -/
def pathJoin3 (a b c : String) : String :=
  pathJoin2 (pathJoin2 a b) c

/-- `[...new Set(l)]` in JavaScript: remove duplicates keeping the first
occurrence of each element, preserving order. -/
def dedupKeepFirst (l : List String) : List String :=
  dedupGo [] l
where
  /-- `seen` accumulates the elements already emitted. -/
  dedupGo (seen : List String) : List String → List String
    | [] => []
    | x :: xs => if x ∈ seen then dedupGo seen xs else x :: dedupGo (x :: seen) xs

/-! ## Escape sanitizer (`stripUnsupportedSequences`)

The source is a single global regex replace:

`data.replace(/\x1b\[[<>?][0-9;]*u|\x1b\[\?(?:2026|1004|2004)[hl]|\x1b\]9;4;0;\x07?/g, "")`

A JavaScript global replace scans left to right; at each position it tries
the alternatives in order (here the alternatives are shape-disjoint), and
on a match removes the matched span and resumes scanning right after it.
The character class `[0-9;]*` is followed by the literal `u`, which is not
in the class, so the greedy run needs no backtracking.  The embedding below
is that scanner. -/

/-- `ESC` (0x1b). -/
def escChar : Char := Char.ofNat 27

/-- `BEL` (0x07). -/
def belChar : Char := Char.ofNat 7

/-- The regex character class `[0-9;]`. -/
def isSeqChar (c : Char) : Bool :=
  ('0' ≤ c && c ≤ '9') || c = ';'

/-- Length of the longest leading run of characters satisfying `p`. -/
def countLeading (p : Char → Bool) : List Char → Nat
  | [] => 0
  | c :: cs => if p c then countLeading p cs + 1 else 0

/-- First regex alternative `\x1b\[[<>?][0-9;]*u` (keyboard-protocol
negotiation): match length at the head of the list, if any. -/
def matchAlt1 : List Char → Option Nat
  | e :: br :: m :: rest =>
    if e = escChar ∧ br = '[' ∧ (m = '<' ∨ m = '>' ∨ m = '?') then
      let k := countLeading isSeqChar rest
      match rest.drop k with
      | u :: _ => if u = 'u' then some (4 + k) else none
      | [] => none
    else none
  | _ => none

/-- Second regex alternative `\x1b\[\?(?:2026|1004|2004)[hl]`
(synchronized output / focus reporting / bracketed paste toggles). -/
def matchAlt2 : List Char → Option Nat
  | e :: br :: q :: d1 :: d2 :: d3 :: d4 :: t :: _ =>
    if e = escChar ∧ br = '[' ∧ q = '?' ∧
        ((d1, d2, d3, d4) = ('2', '0', '2', '6') ∨
         (d1, d2, d3, d4) = ('1', '0', '0', '4') ∨
         (d1, d2, d3, d4) = ('2', '0', '0', '4')) ∧
        (t = 'h' ∨ t = 'l') then
      some 8
    else none
  | _ => none

/-- Third regex alternative `\x1b\]9;4;0;\x07?` (ConEmu progress report,
with the optional terminating `BEL` taken greedily). -/
def matchAlt3 : List Char → Option Nat
  | e :: rb :: n9 :: s1 :: n4 :: s2 :: n0 :: s3 :: rest =>
    if e = escChar ∧ rb = ']' ∧ n9 = '9' ∧ s1 = ';' ∧ n4 = '4' ∧
        s2 = ';' ∧ n0 = '0' ∧ s3 = ';' then
      match rest with
      | b :: _ => if b = belChar then some 9 else some 8
      | [] => some 8
    else none
  | _ => none

/-- Length of the regex match starting at the head of the list, trying the
three alternatives in the order they appear in the source regex. -/
def matchLen (s : List Char) : Option Nat :=
  (matchAlt1 s).orElse (fun _ => (matchAlt2 s).orElse (fun _ => matchAlt3 s))

/-- The global-replace scanner, fuelled to make it structurally recursive
(hence kernel-reducible).  Every step consumes at least one input
character, so fuel `s.length` is always sufficient; with insufficient fuel
the remaining input is returned unchanged (this case is unreachable from
`stripUnsupportedSequences`). -/
def stripAuxF : Nat → List Char → List Char
  | 0, s => s
  | _ + 1, [] => []
  | fuel + 1, c :: cs =>
    match matchLen (c :: cs) with
    | some k => stripAuxF fuel (cs.drop (k - 1))
    | none => c :: stripAuxF fuel cs

/-- `stripUnsupportedSequences` from `src/pty-manager.ts`: remove the
keyboard-protocol, synchronized-output, focus-report, bracketed-paste and
ConEmu-progress sequences. -/
def stripUnsupportedSequences (s : String) : String :=
  String.mk (stripAuxF s.data.length s.data)

/-- `true` iff some position of the list starts a regex match: the chunk
contains an occurrence of one of the targeted control sequences. -/
def hasMatch : List Char → Bool
  | [] => false
  | c :: cs => (matchLen (c :: cs)).isSome || hasMatch cs

/-- Does `pat` occur at the head of `s`? -/
def headOccurs (pat : List Char) (s : List Char) : Bool :=
  match pat, s with
  | [], _ => true
  | _ :: _, [] => false
  | p :: ps, c :: cs => p = c && headOccurs ps cs

/-- Does `pat` occur (contiguously) anywhere in `s`? -/
def occursIn (pat : List Char) : List Char → Bool
  | [] => pat.isEmpty
  | c :: cs => headOccurs pat (c :: cs) || occursIn pat cs

/-! ## Platform, environment and shell detection -/

/-- The process environment `process.env`. -/
def EnvMap : Type := String → Option String

/-- The platform probe used by `detectShell` (`Platform.isMacOS` /
`Platform.isLinux`, anything else being treated as Windows). -/
inductive PlatformM where
  | macOS
  | linux
  | windows
deriving DecidableEq, Repr

/-- `detectShell` from `src/pty-manager.ts`. -/
def detectShell (p : PlatformM) (procEnv : EnvMap) : String :=
  match p with
  | PlatformM.macOS => jsOrStr (procEnv "SHELL") "/bin/zsh"
  | PlatformM.linux => jsOrStr (procEnv "SHELL") "/bin/bash"
  | PlatformM.windows => jsOrStr (procEnv "COMSPEC") "cmd.exe"

/-! ## PATH resolution (`resolveUserPath`, `clearPathCache`, `buildFallbackPath`) -/

/-- Outcome of one `execFileSync` shell query: `ok out` is a normal return
with output `out`; `err` is a thrown exception (timeout, non-zero exit,
spawn failure). -/
inductive QueryResult where
  | ok (out : String)
  | err
deriving DecidableEq, Repr

/-- The external shell collaborator: for each shell program, the outcome of
the login+interactive query (`shell -l -i -c 'echo $PATH'`) and of the
login-only query (`shell -l -c 'echo $PATH'`). -/
structure ShellOracle where
  interactive : String → QueryResult
  login : String → QueryResult

/-- The fixed, well-known user/tool directories of `buildFallbackPath`
(the `extras` array), which depend only on `HOME`. -/
def wellKnownDirs (procEnv : EnvMap) : List String :=
  let home := jsOrStr (procEnv "HOME") ""
  [pathJoin3 home ".local" "bin",
   pathJoin3 home ".bun" "bin",
   "/usr/local/bin",
   "/opt/homebrew/bin",
   "/opt/homebrew/sbin",
   pathJoin3 home ".npm-global" "bin",
   pathJoin2 home "bin"]

/-- The entries of the inherited process PATH as `buildFallbackPath` reads
them: `(process.env.PATH || "/usr/bin:/bin").split(":")`. -/
def inheritedPathEntries (procEnv : EnvMap) : List String :=
  splitColon (jsOrStr (procEnv "PATH") "/usr/bin:/bin")

/-- `buildFallbackPath` from `src/pty-manager.ts`:
`[...new Set([...extras, ...current.split(":")])].filter(Boolean).join(":")`. -/
def buildFallbackPath (procEnv : EnvMap) : String :=
  joinColon ((dedupKeepFirst (wellKnownDirs procEnv ++ inheritedPathEntries procEnv)).filter
    (fun x => x ≠ ""))

/-- The second half of `resolveUserPath` (from the second `try` on): the
login-only query, then the hard-coded fallback.  The `Nat` component counts
the external shell invocations performed by the whole call (the
interactive query has already run when this stage is reached). -/
def resolveLoginStage (o : ShellOracle) (procEnv : EnvMap) (shell : String) :
    String × Option String × Nat :=
  match o.login shell with
  | QueryResult.ok out =>
    let t := trimJS out
    if t = "" then (buildFallbackPath procEnv, some (buildFallbackPath procEnv), 2)
    else (t, some t, 2)
  | QueryResult.err => (buildFallbackPath procEnv, some (buildFallbackPath procEnv), 2)

/-- The resolution chain of `resolveUserPath` once the cache check has
fallen through: interactive+login query, then login-only query, then
`buildFallbackPath`. -/
def resolveChain (p : PlatformM) (o : ShellOracle) (procEnv : EnvMap)
    (shellOverride : Option String) : String × Option String × Nat :=
  match o.interactive (jsOrStr shellOverride (detectShell p procEnv)) with
  | QueryResult.ok out =>
    let t := trimJS out
    if t = "" then resolveLoginStage o procEnv (jsOrStr shellOverride (detectShell p procEnv))
    else (t, some t, 1)
  | QueryResult.err => resolveLoginStage o procEnv (jsOrStr shellOverride (detectShell p procEnv))

/-- `resolveUserPath` from `src/pty-manager.ts`, with the module-level
`cachedUserPath` passed and returned explicitly.  Returns
`(value returned, cache after the call, number of shell invocations)`.
The guard `if (cachedUserPath) return cachedUserPath` is a truthiness
test, so an empty cached string would fall through to the chain. -/
def resolveUserPath (p : PlatformM) (o : ShellOracle) (procEnv : EnvMap)
    (cache : Option String) (shellOverride : Option String) :
    String × Option String × Nat :=
  match cache with
  | some c => if c = "" then resolveChain p o procEnv shellOverride else (c, some c, 0)
  | none => resolveChain p o procEnv shellOverride

/-- `clearPathCache` from `src/pty-manager.ts`: `cachedUserPath = null`. -/
def clearPathCache (_cache : Option String) : Option String :=
  none

/-! ## Command tokenizer -/

/-- Modelled from the spec: `src/parse-command.ts` is imported by
`src/pty-manager.ts` but is not among the provided sources.  §4.3 of the
spec describes the Command Tokenizer as splitting a single command-line
string into a program name and argument list, and records that the
observed reference behaviour is a simple whitespace split (§8 fixes
`"claude --model opus"` ↦ `["claude", "--model", "opus"]`).  The model
splits on runs of whitespace, yielding no empty tokens. -/
def parseCommand (s : String) : List String :=
  ((splitByPred Char.isWhitespace s.data).map String.mk).filter (fun t => t ≠ "")

/-! ## PTY session manager (`PtyManager`) -/

/-- `SpawnOptions` from `src/pty-manager.ts` (the `pluginDir` field only
feeds the native-module loader, which the model treats as succeeding, so
it is omitted). -/
structure SpawnOptionsM where
  shellPath : Option String
  cwd : String
  cols : Nat
  rows : Nat
  command : Option String
  resolvedPath : Option String

/-- The execution environment built by `spawn`:
`Object.assign({}, process.env, {TERM, COLORTERM, PATH, TERM_PROGRAM})`,
with `PATH: options.resolvedPath || buildFallbackPath()`. -/
def spawnEnv (procEnv : EnvMap) (resolvedPath : Option String) : EnvMap :=
  fun k =>
    if k = "TERM" then some "xterm-256color"
    else if k = "COLORTERM" then some "truecolor"
    else if k = "PATH" then some (jsOrStr resolvedPath (buildFallbackPath procEnv))
    else if k = "TERM_PROGRAM" then some "xterm"
    else procEnv k

/-- The single `nodePty.spawn(bin, args, {name, cols, rows, cwd, env})`
call a `spawn` performs.  `shellInvoked` records which branch built the
call: `true` when the resolved interactive shell was launched (no
`options.command`), `false` when the tokenized command was executed
directly. -/
structure SpawnCall where
  bin : String
  args : List String
  cols : Nat
  rows : Nat
  cwd : String
  shellInvoked : Bool
  env : EnvMap

/-- The observable state of one `PtyManager` instance together with the
node-pty collaborator state the code can reach:

* `pty` — the session handle (`this.pty`), as the id of the live session;
* `dataCallbacks`, `exitCallbacks` — the registered consumer lists, as
  callback ids;
* `handlers` — ids of every session this manager ever spawned: `spawn`
  attaches an `onData`/`onExit` closure to the new pty object, and nothing
  in the code ever detaches it, so a late OS event for any such session
  still reaches this manager;
* `nextSid` — fresh session id supply;
* `killedReq` — sessions on which `this.pty.kill()` was requested. -/
structure ManagerState where
  pty : Option Nat
  dataCallbacks : List Nat
  exitCallbacks : List Nat
  handlers : List Nat
  nextSid : Nat
  killedReq : List Nat
deriving DecidableEq, Repr

/-- `PtyManager.spawn`.  The effective shell is
`options.shellPath || detectShell()`; with `options.command` truthy the
tokenized command is executed directly, otherwise the shell is launched
with no arguments.  Note the code neither kills a previously held session
nor clears the callback lists. -/
def spawnStep (p : PlatformM) (procEnv : EnvMap) (opts : SpawnOptionsM)
    (st : ManagerState) : ManagerState × SpawnCall :=
  let shell := jsOrStr opts.shellPath (detectShell p procEnv)
  let env := spawnEnv procEnv opts.resolvedPath
  let call : SpawnCall :=
    match opts.command with
    | some c =>
      if c = "" then
        ⟨shell, [], opts.cols, opts.rows, opts.cwd, true, env⟩
      else
        let parts := parseCommand c
        ⟨parts.headD "", parts.tail, opts.cols, opts.rows, opts.cwd, false, env⟩
    | none => ⟨shell, [], opts.cols, opts.rows, opts.cwd, true, env⟩
  ({ st with
      pty := some st.nextSid
      handlers := st.handlers ++ [st.nextSid]
      nextSid := st.nextSid + 1 },
   call)

/-- `PtyManager.kill`: request termination of the held process if any
(swallowing errors), then null the handle and clear both callback lists. -/
def killStep (st : ManagerState) : ManagerState :=
  { st with
    pty := none
    dataCallbacks := []
    exitCallbacks := []
    killedReq :=
      match st.pty with
      | some s => st.killedReq ++ [s]
      | none => st.killedReq }

/-- A callback invocation observed by a consumer: callback `cb` fired for
an event of session `sid`; `isData` is `true` for a data event and `false`
for an exit event. -/
structure FiredCb where
  sid : Nat
  cb : Nat
  isData : Bool
deriving DecidableEq, Repr

/-- Delivery of an OS data event carrying `data` for session `sid`: the
`onData` closure registered at spawn time sanitizes the chunk, drops it if
it became empty, and otherwise invokes every callback in the *current*
`this.dataCallbacks`. -/
def deliverData (st : ManagerState) (sid : Nat) (data : String) : List FiredCb :=
  if sid ∈ st.handlers then
    if stripUnsupportedSequences data = "" then []
    else st.dataCallbacks.map (fun cb => ⟨sid, cb, true⟩)
  else []

/-- Delivery of an OS exit event for session `sid`: the `onExit` closure
invokes every callback in the *current* `this.exitCallbacks`. -/
def deliverExit (st : ManagerState) (sid : Nat) : List FiredCb :=
  if sid ∈ st.handlers then st.exitCallbacks.map (fun cb => ⟨sid, cb, false⟩)
  else []

/-- The operations that can hit a manager after some point in time: caller
operations (`spawn`, `onData`, `onExit`, `kill`) and OS-driven event
deliveries (`osData`, `osExit`), the latter possibly stemming from an
already-killed session. -/
inductive Op where
  | spawn (opts : SpawnOptionsM)
  | onData (cb : Nat)
  | onExit (cb : Nat)
  | kill
  | osData (sid : Nat) (data : String)
  | osExit (sid : Nat)

/-- One operation against the manager: successor state plus the callback
invocations it caused. -/
def stepOp (p : PlatformM) (procEnv : EnvMap) (st : ManagerState) :
    Op → ManagerState × List FiredCb
  | Op.spawn opts => ((spawnStep p procEnv opts st).1, [])
  | Op.onData cb => ({ st with dataCallbacks := st.dataCallbacks ++ [cb] }, [])
  | Op.onExit cb => ({ st with exitCallbacks := st.exitCallbacks ++ [cb] }, [])
  | Op.kill => (killStep st, [])
  | Op.osData sid data => (st, deliverData st sid data)
  | Op.osExit sid => (st, deliverExit st sid)

/-- Run a sequence of operations, accumulating every callback invocation. -/
def runOps (p : PlatformM) (procEnv : EnvMap) :
    List Op → ManagerState → ManagerState × List FiredCb
  | [], st => (st, [])
  | op :: ops, st =>
    let s1 := stepOp p procEnv st op
    let s2 := runOps p procEnv ops s1.1
    (s2.1, s1.2 ++ s2.2)

/-- The data callbacks registered by a sequence of operations. -/
def regData : List Op → List Nat
  | [] => []
  | Op.onData cb :: ops => cb :: regData ops
  | _ :: ops => regData ops

/-- The exit callbacks registered by a sequence of operations. -/
def regExit : List Op → List Nat
  | [] => []
  | Op.onExit cb :: ops => cb :: regExit ops
  | _ :: ops => regExit ops

/-! ## Sanitizer lemmas -/

/-- The scanner output is a sublist of its input: bytes are only deleted,
never reordered, duplicated or invented. -/
theorem stripAuxF_sublist (fuel : Nat) : ∀ s : List Char, (stripAuxF fuel s).Sublist s := by
  induction fuel with
  | zero => intro s; exact List.Sublist.refl s
  | succ fuel ih =>
    intro s
    match s with
    | [] => simp [stripAuxF]
    | c :: cs =>
      rw [stripAuxF]
      cases h : matchLen (c :: cs) with
      | some k =>
        simp only
        exact ((ih (cs.drop (k - 1))).trans (List.drop_sublist _ _)).trans
          (List.sublist_cons_self c cs)
      | none =>
        simp only
        exact (ih cs).cons₂ c

/-- A chunk containing no targeted sequence passes through unchanged
(for any fuel). -/
theorem stripAuxF_of_not_hasMatch (fuel : Nat) :
    ∀ s : List Char, hasMatch s = false → stripAuxF fuel s = s := by
  induction fuel with
  | zero => intro s _; rfl
  | succ fuel ih =>
    intro s hs
    match s with
    | [] => rfl
    | c :: cs =>
      rw [hasMatch] at hs
      rw [Bool.or_eq_false_iff] at hs
      rw [stripAuxF]
      cases h : matchLen (c :: cs) with
      | some k => rw [h] at hs; simp at hs
      | none => simp only; rw [ih cs hs.2]

/-- A chunk containing a targeted sequence is strictly shortened, given
sufficient fuel. -/
theorem stripAuxF_length_lt (fuel : Nat) :
    ∀ s : List Char, s.length ≤ fuel → hasMatch s = true →
      (stripAuxF fuel s).length < s.length := by
  induction fuel with
  | zero =>
    intro s hlen hs
    interval_cases hlen' : s.length
    · cases s with
      | nil => simp [hasMatch] at hs
      | cons c cs => simp at hlen'
  | succ fuel ih =>
    intro s hlen hs
    match s with
    | [] => simp [hasMatch] at hs
    | c :: cs =>
      rw [stripAuxF]
      cases h : matchLen (c :: cs) with
      | some k =>
        simp only
        calc (stripAuxF fuel (cs.drop (k - 1))).length
            ≤ (cs.drop (k - 1)).length := (stripAuxF_sublist fuel _).length_le
          _ ≤ cs.length := by simp
          _ < (c :: cs).length := by simp
      | none =>
        simp only [List.length_cons]
        rw [hasMatch, h] at hs
        simp only [Option.isSome_none, Bool.false_or] at hs
        have hcs : cs.length ≤ fuel := by
          simpa using Nat.le_of_succ_le_succ hlen
        exact Nat.succ_lt_succ (ih cs hcs hs)

/-! ## Claims C4 and C5: the sanitizer -/

/-- **C4** (amended).  For every input chunk the sanitizer removes exactly
the left-to-right matches of the five targeted sequence categories: the
output is a sublist of the input (every byte outside a removed sequence is
preserved, in its original order, and nothing is added), and the output
equals the input precisely when the input contains no targeted sequence.
The original claim's guarantee that the output contains *zero* occurrences
of a contained sequence category fails: removing a match can splice the
surrounding bytes into a new occurrence (see the counterexample). -/
theorem sanitizer_sublist_and_fixpoint_iff (s : String) :
    ((stripUnsupportedSequences s).data.Sublist s.data) ∧
      (stripUnsupportedSequences s = s ↔ hasMatch s.data = false) := by
  refine ⟨stripAuxF_sublist _ _, ?_, ?_⟩
  · intro h
    by_contra hm
    have hm' : hasMatch s.data = true := by
      cases hb : hasMatch s.data with
      | false => exact absurd hb hm
      | true => rfl
    have hlt := stripAuxF_length_lt s.data.length s.data (Nat.le_refl _) hm'
    have hdata : stripAuxF s.data.length s.data = s.data := congrArg String.data h
    rw [hdata] at hlt
    exact Nat.lt_irrefl _ hlt
  · intro h
    show String.mk (stripAuxF s.data.length s.data) = s
    rw [stripAuxF_of_not_hasMatch _ _ h]

/-- **C4** counterexample.  The chunk `ESC [ ? 2 0 · ESC [ ? 2 0 2 6 h ·
2 6 h` contains the synchronized-output sequence `ESC [ ? 2 0 2 6 h`; the
sanitizer removes that inner occurrence, splicing the surrounding bytes
into a fresh copy of the very same sequence, so the output still contains
it. -/
theorem sanitizer_residual_sequence_counterexample :
    occursIn "\x1b[?2026h".data "\x1b[?20\x1b[?2026h26h".data = true ∧
      occursIn "\x1b[?2026h".data
        (stripUnsupportedSequences "\x1b[?20\x1b[?2026h26h").data = true := by
  decide

/-- **C5** (amended).  The sanitizer is not idempotent in general: removing
a sequence can splice the surrounding bytes into a new targeted sequence,
which only a second pass removes.  A second application is the identity
precisely when the first application's output is free of targeted
sequences. -/
theorem sanitizer_idempotent_iff_output_matchfree (s : String) :
    stripUnsupportedSequences (stripUnsupportedSequences s) = stripUnsupportedSequences s ↔
      hasMatch (stripUnsupportedSequences s).data = false := by
  constructor
  · intro h
    by_contra hm
    have hm' : hasMatch (stripUnsupportedSequences s).data = true := by
      cases hb : hasMatch (stripUnsupportedSequences s).data with
      | false => exact absurd hb hm
      | true => rfl
    have hlt := stripAuxF_length_lt (stripUnsupportedSequences s).data.length
      (stripUnsupportedSequences s).data (Nat.le_refl _) hm'
    have hdata : stripAuxF (stripUnsupportedSequences s).data.length
        (stripUnsupportedSequences s).data = (stripUnsupportedSequences s).data :=
      congrArg String.data h
    rw [hdata] at hlt
    exact Nat.lt_irrefl _ hlt
  · intro h
    show String.mk (stripAuxF _ _) = stripUnsupportedSequences s
    rw [stripAuxF_of_not_hasMatch _ _ h]

/-- **C5** counterexample.  On `ESC [ ? · ESC [ ? 2 0 2 6 h · 1 2 3 u` one
application yields `ESC [ ? 1 2 3 u` (a keyboard-protocol sequence spliced
together by the removal), and a second application removes it: the two
results differ. -/
theorem sanitizer_not_idempotent_counterexample :
    stripUnsupportedSequences (stripUnsupportedSequences "\x1b[?\x1b[?2026h123u") ≠
      stripUnsupportedSequences "\x1b[?\x1b[?2026h123u" := by
  decide

/-! ## PATH resolver lemmas -/

/-- `path.join(a, "bin")` always ends in `bin`, hence is never empty. -/
theorem pathJoin2_bin_ne (a : String) : pathJoin2 a "bin" ≠ "" := by
  unfold pathJoin2
  split
  · decide
  · intro h
    have hd := congrArg String.data h
    simp [String.data_append] at hd

/-- Joining a list whose head is nonempty yields a nonempty string. -/
theorem joinColon_ne_empty (x : String) (xs : List String) (hx : x ≠ "") :
    joinColon (x :: xs) ≠ "" := by
  cases xs with
  | nil => exact hx
  | cons y ys =>
    rw [joinColon]
    intro h
    have hd := congrArg String.data h
    simp [String.data_append] at hd

/-- One unfolding step of the dedup worker. -/
theorem dedupGo_cons (seen : List String) (x : String) (xs : List String) :
    dedupKeepFirst.dedupGo seen (x :: xs) =
      if x ∈ seen then dedupKeepFirst.dedupGo seen xs
      else x :: dedupKeepFirst.dedupGo (x :: seen) xs := rfl

/-- Deduplicating a cons list always emits the head first. -/
theorem dedupKeepFirst_cons (x : String) (xs : List String) :
    dedupKeepFirst (x :: xs) = x :: dedupKeepFirst.dedupGo [x] xs := by
  unfold dedupKeepFirst
  rw [dedupGo_cons]
  simp

/-- The synthesized fallback PATH is never the empty string: its first
entry ends in `bin` and survives the `filter(Boolean)`. -/
theorem buildFallbackPath_ne_empty (procEnv : EnvMap) : buildFallbackPath procEnv ≠ "" := by
  have h1 : pathJoin3 (jsOrStr (procEnv "HOME") "") ".local" "bin" ≠ "" :=
    pathJoin2_bin_ne _
  show joinColon ((dedupKeepFirst
      (wellKnownDirs procEnv ++ inheritedPathEntries procEnv)).filter (fun x => x ≠ "")) ≠ ""
  rw [show wellKnownDirs procEnv ++ inheritedPathEntries procEnv =
      pathJoin3 (jsOrStr (procEnv "HOME") "") ".local" "bin" ::
        ([pathJoin3 (jsOrStr (procEnv "HOME") "") ".bun" "bin",
          "/usr/local/bin", "/opt/homebrew/bin", "/opt/homebrew/sbin",
          pathJoin3 (jsOrStr (procEnv "HOME") "") ".npm-global" "bin",
          pathJoin2 (jsOrStr (procEnv "HOME") "") "bin"] ++
            inheritedPathEntries procEnv) from rfl]
  rw [dedupKeepFirst_cons, List.filter_cons_of_pos (by simpa using h1)]
  exact joinColon_ne_empty _ _ h1

/-- The login-only stage always returns a nonempty string and caches
exactly the value it returns. -/
theorem resolveLoginStage_populates (o : ShellOracle) (procEnv : EnvMap) (shell : String) :
    (resolveLoginStage o procEnv shell).2.1 = some (resolveLoginStage o procEnv shell).1 ∧
      (resolveLoginStage o procEnv shell).1 ≠ "" := by
  unfold resolveLoginStage
  cases o.login shell with
  | ok out =>
    simp only
    split
    · exact ⟨rfl, buildFallbackPath_ne_empty procEnv⟩
    · next h => exact ⟨rfl, h⟩
  | err => exact ⟨rfl, buildFallbackPath_ne_empty procEnv⟩

/-- The resolution chain always returns a nonempty string and caches
exactly the value it returns. -/
theorem resolveChain_populates (p : PlatformM) (o : ShellOracle) (procEnv : EnvMap)
    (ov : Option String) :
    (resolveChain p o procEnv ov).2.1 = some (resolveChain p o procEnv ov).1 ∧
      (resolveChain p o procEnv ov).1 ≠ "" := by
  unfold resolveChain
  cases o.interactive (jsOrStr ov (detectShell p procEnv)) with
  | ok out =>
    simp only
    split
    · exact resolveLoginStage_populates ..
    · next h => exact ⟨rfl, h⟩
  | err => exact resolveLoginStage_populates ..

/-- Every `resolveUserPath` call returns a nonempty string and leaves the
cache holding exactly the value it returned. -/
theorem resolveUserPath_populates (p : PlatformM) (o : ShellOracle) (procEnv : EnvMap)
    (cache ov : Option String) :
    (resolveUserPath p o procEnv cache ov).2.1 = some (resolveUserPath p o procEnv cache ov).1 ∧
      (resolveUserPath p o procEnv cache ov).1 ≠ "" := by
  unfold resolveUserPath
  cases cache with
  | some c =>
    simp only
    split
    · exact resolveChain_populates ..
    · next h => exact ⟨rfl, h⟩
  | none => exact resolveChain_populates ..

/-- A truthy (nonempty) cache short-circuits the whole resolution: the
cached value is returned verbatim, the cache is untouched, and no shell is
invoked. -/
theorem resolveUserPath_cached (p : PlatformM) (o : ShellOracle) (procEnv : EnvMap)
    (ov : Option String) (c : String) (hc : c ≠ "") :
    resolveUserPath p o procEnv (some c) ov = (c, some c, 0) := by
  simp [resolveUserPath, hc]

/-- The login-only stage reports two shell invocations. -/
theorem resolveLoginStage_invokes (o : ShellOracle) (procEnv : EnvMap) (shell : String) :
    (resolveLoginStage o procEnv shell).2.2 = 2 := by
  unfold resolveLoginStage
  cases o.login shell with
  | ok out => simp only; split <;> rfl
  | err => rfl

/-- A call that reaches the resolution chain performs at least one
external shell invocation. -/
theorem resolveChain_invokes (p : PlatformM) (o : ShellOracle) (procEnv : EnvMap)
    (ov : Option String) : 1 ≤ (resolveChain p o procEnv ov).2.2 := by
  unfold resolveChain
  cases o.interactive (jsOrStr ov (detectShell p procEnv)) with
  | ok out =>
    simp only
    split
    · rw [resolveLoginStage_invokes]; omega
    · simp
  | err => rw [resolveLoginStage_invokes]; omega

/-- The dedup worker only consults `seen` through membership of the
elements it scans: accumulators agreeing on those elements are
interchangeable. -/
theorem dedupGo_congr (l : List String) :
    ∀ s1 s2 : List String, (∀ y ∈ l, (y ∈ s1 ↔ y ∈ s2)) →
      dedupKeepFirst.dedupGo s1 l = dedupKeepFirst.dedupGo s2 l := by
  induction l with
  | nil => intro s1 s2 _; rfl
  | cons x xs ih =>
    intro s1 s2 hagree
    rw [dedupGo_cons, dedupGo_cons]
    have hx := hagree x (List.mem_cons_self x xs)
    by_cases hm : x ∈ s1
    · rw [if_pos hm, if_pos (hx.mp hm)]
      exact ih s1 s2 (fun y hy => hagree y (List.mem_cons_of_mem x hy))
    · rw [if_neg hm, if_neg (fun h => hm (hx.mpr h))]
      refine congrArg (x :: ·) (ih (x :: s1) (x :: s2) ?_)
      intro y hy
      simp only [List.mem_cons]
      rw [hagree y (List.mem_cons_of_mem x hy)]

/-- Filtering commutes with first-occurrence deduplication (worker form). -/
theorem dedupGo_filter (q : String → Bool) (l : List String) :
    ∀ seen : List String,
      dedupKeepFirst.dedupGo seen (l.filter q) =
        (dedupKeepFirst.dedupGo seen l).filter q := by
  induction l with
  | nil => intro seen; rfl
  | cons x xs ih =>
    intro seen
    by_cases hq : q x = true
    · rw [List.filter_cons_of_pos hq, dedupGo_cons, dedupGo_cons]
      by_cases hm : x ∈ seen
      · rw [if_pos hm, if_pos hm, ih seen]
      · rw [if_neg hm, if_neg hm, List.filter_cons_of_pos hq, ih (x :: seen)]
    · rw [List.filter_cons_of_neg hq, dedupGo_cons]
      by_cases hm : x ∈ seen
      · rw [if_pos hm, ih seen]
      · rw [if_neg hm, List.filter_cons_of_neg hq, ← ih (x :: seen)]
        refine dedupGo_congr _ _ _ ?_
        intro y hy
        have hqy : q y = true := List.of_mem_filter hy
        have hyx : y ≠ x := by
          intro h
          rw [h] at hqy
          exact hq hqy
        simp [List.mem_cons, hyx]

/-- Filtering commutes with first-occurrence deduplication. -/
theorem dedupKeepFirst_filter (q : String → Bool) (l : List String) :
    dedupKeepFirst (l.filter q) = (dedupKeepFirst l).filter q :=
  dedupGo_filter q l []

/-! ## Claims C6, C7, C10: the PATH resolver -/

/-- **C6**.  The cache invariant of the PATH resolver: (1)–(2) every
resolution outcome (shell success or fallback) leaves the cache holding
exactly the nonempty value returned — in particular a failed resolution
never stores an error marker; (3) once populated, every subsequent call —
on any platform, with any environment, any oracle, any override — returns
the cached value verbatim with zero external shell invocations; (4)–(5)
after `clearPathCache` the next call behaves like a fresh resolution and
performs at least one shell invocation; (6) when both shell queries throw,
the call returns and caches the synthesized fallback. -/
theorem resolveUserPath_cache_invariant (p p' : PlatformM) (o o' : ShellOracle)
    (env env' : EnvMap) (cache ov ov' : Option String) :
    (resolveUserPath p o env cache ov).2.1 = some (resolveUserPath p o env cache ov).1 ∧
    (resolveUserPath p o env cache ov).1 ≠ "" ∧
    resolveUserPath p' o' env' (resolveUserPath p o env cache ov).2.1 ov' =
      ((resolveUserPath p o env cache ov).1, (resolveUserPath p o env cache ov).2.1, 0) ∧
    resolveUserPath p' o' env' (clearPathCache (resolveUserPath p o env cache ov).2.1) ov' =
      resolveUserPath p' o' env' none ov' ∧
    1 ≤ (resolveUserPath p' o' env' none ov').2.2 ∧
    ((∀ sh, o.interactive sh = QueryResult.err) → (∀ sh, o.login sh = QueryResult.err) →
      resolveUserPath p o env none ov =
        (buildFallbackPath env, some (buildFallbackPath env), 2)) := by
  obtain ⟨hcache, hne⟩ := resolveUserPath_populates p o env cache ov
  refine ⟨hcache, hne, ?_, rfl, resolveChain_invokes p' o' env' ov', ?_⟩
  · rw [hcache]
    exact resolveUserPath_cached p' o' env' ov' _ hne
  · intro h1 h2
    show resolveChain p o env ov = _
    unfold resolveChain resolveLoginStage
    rw [h1, h2]

/-- **C6** witness: with an oracle whose every query throws, a fresh
resolution returns the synthesized fallback and caches it, having invoked
the shell twice. -/
theorem resolveUserPath_cache_invariant_witness :
    resolveUserPath PlatformM.macOS ⟨fun _ => QueryResult.err, fun _ => QueryResult.err⟩
        (fun _ => none) none none =
      (buildFallbackPath (fun _ => none), some (buildFallbackPath (fun _ => none)), 2) :=
  (resolveUserPath_cache_invariant PlatformM.macOS PlatformM.macOS
    ⟨fun _ => QueryResult.err, fun _ => QueryResult.err⟩
    ⟨fun _ => QueryResult.err, fun _ => QueryResult.err⟩
    (fun _ => none) (fun _ => none) none none none).2.2.2.2.2
    (fun _ => rfl) (fun _ => rfl)

/-- **C10**.  Once the cache has been populated — by any call, with any
outcome — a subsequent `resolveUserPath` call ignores its `shellOverride`
argument entirely: for every override string `s`, every oracle (even one
giving that shell a different PATH) and every platform/environment, it
returns the previously cached value and performs no shell invocation. -/
theorem resolveUserPath_ignores_override_when_cached (p p' : PlatformM)
    (o o' : ShellOracle) (env env' : EnvMap) (cache ov : Option String) (s : String) :
    resolveUserPath p' o' env' (resolveUserPath p o env cache ov).2.1 (some s) =
      ((resolveUserPath p o env cache ov).1, (resolveUserPath p o env cache ov).2.1, 0) := by
  obtain ⟨hcache, hne⟩ := resolveUserPath_populates p o env cache ov
  rw [hcache]
  exact resolveUserPath_cached p' o' env' (some s) _ hne

/-- Did this shell query fail to produce a usable PATH (thrown error —
timeout, non-zero exit — or empty trimmed output)? -/
def queryFails : QueryResult → Bool
  | QueryResult.ok out => trimJS out = ""
  | QueryResult.err => true

/-- The synthesized fallback PATH as the amended claim words it: the fixed
well-known directories followed by the entries of the inherited process
PATH, with empty entries discarded and duplicates removed keeping the
first occurrence. -/
def specSynthesizedPath (procEnv : EnvMap) : String :=
  joinColon (dedupKeepFirst
    ((wellKnownDirs procEnv ++ inheritedPathEntries procEnv).filter (fun x => x ≠ "")))

/-- The synthesized fallback PATH as the original claim words it: the
fixed well-known directories followed by the entries of the inherited
process PATH, with duplicates removed keeping the first occurrence (no
discarding of empty entries). -/
def claimSynthesizedPath (procEnv : EnvMap) : String :=
  joinColon (dedupKeepFirst (wellKnownDirs procEnv ++ inheritedPathEntries procEnv))

/-- **C7** (amended).  `resolveUserPath` never fails: it is a total
function whose every outcome is a nonempty PATH string; when both shell
queries fail (thrown error or empty output) a fresh resolution returns the
synthesized fallback; and that fallback is the order-preserving,
duplicate-removing (first occurrence kept) concatenation of the fixed
well-known directories followed by the entries of the inherited process
PATH **with empty entries discarded** (the original claim omitted the
discarding, which the code's `filter(Boolean)` performs — see the
counterexample). -/
theorem resolveUserPath_total_and_fallback (p : PlatformM) (o : ShellOracle)
    (env : EnvMap) (ov : Option String) :
    (resolveUserPath p o env none ov).1 ≠ "" ∧
    buildFallbackPath env = specSynthesizedPath env ∧
    ((∀ sh, queryFails (o.interactive sh) = true) →
      (∀ sh, queryFails (o.login sh) = true) →
      (resolveUserPath p o env none ov).1 = buildFallbackPath env) := by
  refine ⟨(resolveUserPath_populates p o env none ov).2, ?_, ?_⟩
  · unfold buildFallbackPath specSynthesizedPath
    rw [dedupKeepFirst_filter]
  · intro h1 h2
    show (resolveChain p o env ov).1 = _
    unfold resolveChain resolveLoginStage
    cases hi : o.interactive (jsOrStr ov (detectShell p env)) with
    | ok out =>
      have := h1 (jsOrStr ov (detectShell p env))
      rw [hi] at this
      simp only [queryFails, decide_eq_true_eq] at this
      simp only [this, if_pos rfl]
      cases hl : o.login (jsOrStr ov (detectShell p env)) with
      | ok out2 =>
        have := h2 (jsOrStr ov (detectShell p env))
        rw [hl] at this
        simp only [queryFails, decide_eq_true_eq] at this
        simp [this]
      | err => rfl
    | err =>
      cases hl : o.login (jsOrStr ov (detectShell p env)) with
      | ok out2 =>
        have := h2 (jsOrStr ov (detectShell p env))
        rw [hl] at this
        simp only [queryFails, decide_eq_true_eq] at this
        simp [this]
      | err => rfl

/-- **C7** witness: with an oracle whose every query throws, a fresh
resolution returns exactly the synthesized fallback. -/
theorem resolveUserPath_total_and_fallback_witness :
    (resolveUserPath PlatformM.linux ⟨fun _ => QueryResult.err, fun _ => QueryResult.err⟩
        (fun _ => none) none none).1 =
      buildFallbackPath (fun _ => none) :=
  (resolveUserPath_total_and_fallback PlatformM.linux
    ⟨fun _ => QueryResult.err, fun _ => QueryResult.err⟩ (fun _ => none) none).2.2
    (fun _ => rfl) (fun _ => rfl)

/-- **C7** counterexample.  With `HOME=/home/u` and an inherited
`PATH=a::b` (an empty middle entry) and both shell queries failing, the
value `resolveUserPath` returns is **not** the claim's synthesis — the
code's `filter(Boolean)` drops the empty entry, so the claimed
`…:a::b` differs from the actual `…:a:b`. -/
theorem fallback_empty_entry_counterexample :
    (resolveUserPath PlatformM.macOS ⟨fun _ => QueryResult.err, fun _ => QueryResult.err⟩
        (fun k => if k = "HOME" then some "/home/u"
                  else if k = "PATH" then some "a::b" else none) none none).1 ≠
      claimSynthesizedPath
        (fun k => if k = "HOME" then some "/home/u"
                  else if k = "PATH" then some "a::b" else none) := by
  decide

/-! ## Claims C3 and C8: `spawn` -/

/-- Shared concrete fixture: a freshly constructed manager. -/
def mgr0 : ManagerState := ⟨none, [], [], [], 0, []⟩

/-- Shared concrete fixture: spawn options for a plain interactive shell
(no direct command, no pre-resolved PATH). -/
def optsShell : SpawnOptionsM := ⟨none, "/vault", 80, 24, none, none⟩

/-- Shared concrete fixture: a process environment with `HOME`, `PATH`
and one unrelated variable set. -/
def envSample : EnvMap := fun k =>
  if k = "HOME" then some "/home/u"
  else if k = "PATH" then some "/usr/bin"
  else if k = "FOO" then some "bar"
  else none

/-- All branches of `spawn` pass the same execution environment to the
native spawn call. -/
theorem spawnStep_env (p : PlatformM) (procEnv : EnvMap) (opts : SpawnOptionsM)
    (st : ManagerState) :
    (spawnStep p procEnv opts st).2.env = spawnEnv procEnv opts.resolvedPath := by
  unfold spawnStep
  cases opts.command with
  | some c =>
    simp only
    split <;> rfl
  | none => rfl

/-- **C3** (amended).  The environment passed to the spawned child is the
current process environment overridden with `TERM=xterm-256color`,
`COLORTERM=truecolor`, `TERM_PROGRAM=xterm`, and `PATH` equal to
`options.resolvedPath` when that field is given and nonempty, **otherwise
equal to the synthesized fallback `buildFallbackPath()`** — the Path
Resolver's shell-query chain (`resolveUserPath`) is not consulted on this
path (the original claim said it was; see the counterexample).  Every
other variable is inherited unchanged. -/
theorem spawn_env_overrides (p : PlatformM) (procEnv : EnvMap) (opts : SpawnOptionsM)
    (st : ManagerState) :
    (spawnStep p procEnv opts st).2.env "TERM" = some "xterm-256color" ∧
    (spawnStep p procEnv opts st).2.env "COLORTERM" = some "truecolor" ∧
    (spawnStep p procEnv opts st).2.env "TERM_PROGRAM" = some "xterm" ∧
    (spawnStep p procEnv opts st).2.env "PATH" =
      some (jsOrStr opts.resolvedPath (buildFallbackPath procEnv)) ∧
    (∀ k, k ≠ "TERM" → k ≠ "COLORTERM" → k ≠ "PATH" → k ≠ "TERM_PROGRAM" →
      (spawnStep p procEnv opts st).2.env k = procEnv k) := by
  rw [spawnStep_env]
  refine ⟨by simp [spawnEnv], by simp [spawnEnv], by simp [spawnEnv], by simp [spawnEnv], ?_⟩
  intro k h1 h2 h3 h4
  simp [spawnEnv, h1, h2, h3, h4]

/-- **C3** witness: on a concrete environment, a spawn with no
`resolvedPath` leaves the unrelated variable `FOO` untouched. -/
theorem spawn_env_overrides_witness :
    (spawnStep PlatformM.macOS envSample optsShell mgr0).2.env "FOO" = envSample "FOO" :=
  (spawn_env_overrides PlatformM.macOS envSample optsShell mgr0).2.2.2.2 "FOO"
    (by decide) (by decide) (by decide) (by decide)

/-- **C3** counterexample.  With a shell oracle whose interactive query
succeeds with `SHELLPATH`, the Path Resolver's result is `SHELLPATH`, yet
the environment `spawn` builds (no `resolvedPath` given) carries the
synthesized fallback instead: `spawn` never consults the resolver. -/
theorem spawn_env_path_counterexample :
    (resolveUserPath PlatformM.macOS
        ⟨fun _ => QueryResult.ok "SHELLPATH", fun _ => QueryResult.err⟩
        envSample none none).1 = "SHELLPATH" ∧
    (spawnStep PlatformM.macOS envSample optsShell mgr0).2.env "PATH" =
      some (buildFallbackPath envSample) ∧
    buildFallbackPath envSample ≠ "SHELLPATH" := by
  refine ⟨by decide, ?_, by decide⟩
  rw [spawnStep_env]
  simp [spawnEnv, optsShell, jsOrStr]

/-- **C8** (`spec-modelled` for the tokenizer, see `parseCommand`).  When
`options.command` is set (to a truthy, tokenizable string), `spawn`
executes the first token as the child program with the remaining tokens as
its arguments, in the given working directory with the given initial
size, and the interactive shell branch is not taken. -/
theorem spawn_command_direct_exec (p : PlatformM) (procEnv : EnvMap)
    (opts : SpawnOptionsM) (st : ManagerState) (c b : String) (args : List String)
    (hc : opts.command = some c) (hne : c ≠ "") (hparse : parseCommand c = b :: args) :
    (spawnStep p procEnv opts st).2.bin = b ∧
    (spawnStep p procEnv opts st).2.args = args ∧
    (spawnStep p procEnv opts st).2.cwd = opts.cwd ∧
    (spawnStep p procEnv opts st).2.cols = opts.cols ∧
    (spawnStep p procEnv opts st).2.rows = opts.rows ∧
    (spawnStep p procEnv opts st).2.shellInvoked = false := by
  unfold spawnStep
  rw [hc]
  simp [hne, hparse]

/-- **C8** witness: spawning with `command = "claude --model opus"`
executes program `claude` with arguments `["--model", "opus"]`, not the
shell. -/
theorem spawn_command_direct_exec_witness :
    (spawnStep PlatformM.macOS envSample
        ⟨none, "/vault", 80, 24, some "claude --model opus", none⟩ mgr0).2.bin = "claude" ∧
    (spawnStep PlatformM.macOS envSample
        ⟨none, "/vault", 80, 24, some "claude --model opus", none⟩ mgr0).2.args =
      ["--model", "opus"] ∧
    (spawnStep PlatformM.macOS envSample
        ⟨none, "/vault", 80, 24, some "claude --model opus", none⟩ mgr0).2.shellInvoked =
      false := by
  have h := spawn_command_direct_exec PlatformM.macOS envSample
    ⟨none, "/vault", 80, 24, some "claude --model opus", none⟩ mgr0
    "claude --model opus" "claude" ["--model", "opus"] rfl (by decide) (by decide)
  exact ⟨h.1, h.2.1, h.2.2.2.2.2⟩

/-! ## Claims C1, C2 and C9: session lifecycle -/

/-- Every callback invocation produced by a run of operations is
attributable either to a callback already registered when the run started
or to a registration performed by the run itself. -/
theorem runOps_fires_sub (p : PlatformM) (procEnv : EnvMap) :
    ∀ (ops : List Op) (st : ManagerState) (f : FiredCb),
      f ∈ (runOps p procEnv ops st).2 →
        (f.isData = true → f.cb ∈ st.dataCallbacks ++ regData ops) ∧
        (f.isData = false → f.cb ∈ st.exitCallbacks ++ regExit ops) := by
  intro ops
  induction ops with
  | nil =>
    intro st f hf
    simp [runOps] at hf
  | cons op ops ih =>
    intro st f hf
    rw [runOps] at hf
    simp only [List.mem_append] at hf
    cases hf with
    | inl h1 =>
      cases op with
      | spawn opts => simp [stepOp] at h1
      | onData cb => simp [stepOp] at h1
      | onExit cb => simp [stepOp] at h1
      | kill => simp [stepOp] at h1
      | osData sid data =>
        simp only [stepOp] at h1
        unfold deliverData at h1
        split at h1
        · split at h1
          · simp at h1
          · rw [List.mem_map] at h1
            obtain ⟨cb, hcb, rfl⟩ := h1
            exact ⟨fun _ => List.mem_append_left _ hcb, fun h => Bool.noConfusion h⟩
        · simp at h1
      | osExit sid =>
        simp only [stepOp] at h1
        unfold deliverExit at h1
        split at h1
        · rw [List.mem_map] at h1
          obtain ⟨cb, hcb, rfl⟩ := h1
          exact ⟨fun h => Bool.noConfusion h, fun _ => List.mem_append_left _ hcb⟩
        · simp at h1
    | inr h2 =>
      have hih := ih (stepOp p procEnv st op).1 f h2
      cases op with
      | spawn opts =>
        have hd : (stepOp p procEnv st (Op.spawn opts)).1.dataCallbacks =
            st.dataCallbacks := rfl
        have he : (stepOp p procEnv st (Op.spawn opts)).1.exitCallbacks =
            st.exitCallbacks := rfl
        rw [hd, he] at hih
        exact hih
      | onData cb =>
        have hd : (stepOp p procEnv st (Op.onData cb)).1.dataCallbacks =
            st.dataCallbacks ++ [cb] := rfl
        have he : (stepOp p procEnv st (Op.onData cb)).1.exitCallbacks =
            st.exitCallbacks := rfl
        rw [hd, he] at hih
        constructor
        · intro h
          have := hih.1 h
          simp only [regData, List.mem_append, List.mem_cons, List.mem_singleton,
            List.append_assoc] at this ⊢
          tauto
        · intro h
          have := hih.2 h
          simpa [regExit] using this
      | onExit cb =>
        have hd : (stepOp p procEnv st (Op.onExit cb)).1.dataCallbacks =
            st.dataCallbacks := rfl
        have he : (stepOp p procEnv st (Op.onExit cb)).1.exitCallbacks =
            st.exitCallbacks ++ [cb] := rfl
        rw [hd, he] at hih
        constructor
        · intro h
          have := hih.1 h
          simpa [regData] using this
        · intro h
          have := hih.2 h
          simp only [regExit, List.mem_append, List.mem_cons, List.mem_singleton,
            List.append_assoc] at this ⊢
          tauto
      | kill =>
        have hd : (stepOp p procEnv st Op.kill).1.dataCallbacks = [] := rfl
        have he : (stepOp p procEnv st Op.kill).1.exitCallbacks = [] := rfl
        rw [hd, he] at hih
        constructor
        · intro h
          exact List.mem_append_right _ (by simpa [regData] using hih.1 h)
        · intro h
          exact List.mem_append_right _ (by simpa [regExit] using hih.2 h)
      | osData sid data => exact hih
      | osExit sid => exact hih

/-- **C1**.  After `kill()` returns, the session handle is null and both
callback lists are empty; moreover, for *any* subsequent run of
operations, every callback invocation caused by a delivered data or exit
event — in particular one from the just-killed session whose OS event was
still in flight — hits only callbacks registered *after* the kill.  Hence
no callback registered before the kill (and not registered again) is ever
invoked again.  (The registered `onData`/`onExit` closures survive in the
node-pty object, but they read the manager's *current* — now cleared —
lists.) -/
theorem kill_silences_prior_callbacks (p : PlatformM) (procEnv : EnvMap)
    (st : ManagerState) (ops : List Op) :
    (killStep st).pty = none ∧
    (killStep st).dataCallbacks = [] ∧
    (killStep st).exitCallbacks = [] ∧
    (∀ f ∈ (runOps p procEnv ops (killStep st)).2,
      (f.isData = true → f.cb ∈ regData ops) ∧
      (f.isData = false → f.cb ∈ regExit ops)) := by
  refine ⟨rfl, rfl, rfl, ?_⟩
  intro f hf
  have h := runOps_fires_sub p procEnv ops (killStep st) f hf
  rw [show (killStep st).dataCallbacks = [] from rfl,
    show (killStep st).exitCallbacks = [] from rfl] at h
  simpa using h

/-- Shared concrete fixture: a manager holding live session `0` with one
data consumer (`1`) and one exit consumer (`2`). -/
def mgrLive : ManagerState := ⟨some 0, [1], [2], [0], 1, []⟩

/-- **C1** witness: after killing `mgrLive`, a late data event from the
killed session `0` — arriving after a fresh consumer `5` was registered —
invokes only that fresh consumer, which is indeed among the post-kill
registrations. -/
theorem kill_silences_prior_callbacks_witness :
    (killStep mgrLive).pty = none ∧
    (⟨0, 5, true⟩ : FiredCb) ∈
      (runOps PlatformM.macOS envSample [Op.onData 5, Op.osData 0 "hello"]
        (killStep mgrLive)).2 ∧
    5 ∈ regData [Op.onData 5, Op.osData 0 "hello"] := by
  refine ⟨(kill_silences_prior_callbacks PlatformM.macOS envSample mgrLive
    [Op.onData 5, Op.osData 0 "hello"]).1, by decide, ?_⟩
  exact ((kill_silences_prior_callbacks PlatformM.macOS envSample mgrLive
    [Op.onData 5, Op.osData 0 "hello"]).2.2.2 ⟨0, 5, true⟩ (by decide)).1 rfl

/-- **C2** (amended).  `spawn` does **not** tear down a previously held
session: it requests no termination of the old child process and leaves
both callback lists untouched; it merely overwrites the handle with the
new session's and registers handlers for it.  A manager that held a live
session therefore owns two spawned child processes, and events of both are
delivered to the same callback lists.  Teardown before respawn is the
caller's responsibility (`terminal-view.ts` calls `kill()` and builds a
fresh `PtyManager` before each `spawn`). -/
theorem spawn_does_not_teardown_previous_session (p : PlatformM) (procEnv : EnvMap)
    (opts : SpawnOptionsM) (st : ManagerState) :
    (spawnStep p procEnv opts st).1.dataCallbacks = st.dataCallbacks ∧
    (spawnStep p procEnv opts st).1.exitCallbacks = st.exitCallbacks ∧
    (spawnStep p procEnv opts st).1.killedReq = st.killedReq ∧
    (spawnStep p procEnv opts st).1.pty = some st.nextSid ∧
    (spawnStep p procEnv opts st).1.handlers = st.handlers ++ [st.nextSid] :=
  ⟨rfl, rfl, rfl, rfl, rfl⟩

/-- Shared concrete fixture: a manager holding live session `0` with data
consumer `7` and exit consumer `8`. -/
def mgrLive7 : ManagerState := ⟨some 0, [7], [8], [0], 1, []⟩

/-- **C2** counterexample.  Spawning on a manager that holds live session
`0`: no termination of session `0` is requested (`killedReq` stays empty),
the callback lists are not cleared, and after the new session `1` exists a
data event of old session `0` is still delivered to consumer `7` — the
old session was not torn down and events of two sessions reach the same
consumers. -/
theorem spawn_teardown_counterexample :
    (spawnStep PlatformM.macOS envSample optsShell mgrLive7).1.killedReq = [] ∧
    (spawnStep PlatformM.macOS envSample optsShell mgrLive7).1.dataCallbacks = [7] ∧
    (spawnStep PlatformM.macOS envSample optsShell mgrLive7).1.pty = some 1 ∧
    deliverData (spawnStep PlatformM.macOS envSample optsShell mgrLive7).1 0 "x" =
      [⟨0, 7, true⟩] := by
  decide

/-- **C9** (amended).  `kill()` on a manager with no live session does not
raise (it is a total function) and requests no process termination, but it
is *not* a strict no-op: it still unconditionally clears both callback
lists, so the state is unchanged only when both lists are already empty.
`kill` is idempotent in the compositional sense: `kill ∘ kill = kill`. -/
theorem kill_on_empty_manager (st : ManagerState) :
    (st.pty = none →
      killStep st = { st with pty := none, dataCallbacks := [], exitCallbacks := [] }) ∧
    killStep (killStep st) = killStep st := by
  constructor
  · intro h
    simp [killStep, h]
  · rfl

/-- **C9** witness: killing an empty manager that still holds registered
callbacks clears exactly those lists, and a second kill changes nothing. -/
theorem kill_on_empty_manager_witness :
    killStep ⟨none, [3], [4], [], 0, []⟩ = ⟨none, [], [], [], 0, []⟩ ∧
    killStep (killStep ⟨none, [3], [4], [], 0, []⟩) =
      killStep ⟨none, [3], [4], [], 0, []⟩ :=
  ⟨(kill_on_empty_manager ⟨none, [3], [4], [], 0, []⟩).1 rfl,
    (kill_on_empty_manager ⟨none, [3], [4], [], 0, []⟩).2⟩

/-- **C9** counterexample.  On a manager with no live session but a
registered data consumer, `kill()` does change the state: the consumer
list is cleared, so the state after `kill` differs from the state
before. -/
theorem kill_on_empty_manager_counterexample :
    killStep ⟨none, [3], [], [], 0, []⟩ ≠ ⟨none, [3], [], [], 0, []⟩ := by
  decide
